import Mathlib

/-!
Verification development for the `risk-kit` expert-scorecard engine
(`src/risk_kit/expert_scorecard`).  Python floats are modelled as exact
rationals (`ℚ`); values flowing into buckets are either numbers or strings;
fallible Python code (raised exceptions) is modelled with `Except`.
-/

namespace RiskKit

/-- A value presented to a bucket or feature: Python `float | int` on one side,
`str` on the other (`bucket.py`, signature of `get_score`). -/
inductive Value where
  | num (q : ℚ)
  | str (s : String)
deriving DecidableEq

/-- Exceptions raised by the classification code paths:
`TypeError` from the `isinstance` guards in `bucket.py`, and `AttributeError`
from evaluating the undefined attribute `contains` in `feature.py`. -/
inductive PyErr where
  | typeMismatch
  | attributeError
deriving DecidableEq

instance {ε α : Type} [DecidableEq ε] [DecidableEq α] : DecidableEq (Except ε α) := fun a b =>
  match a, b with
  | .ok x, .ok y => decidable_of_iff (x = y) (by simp)
  | .error e, .error f => decidable_of_iff (e = f) (by simp)
  | .ok _, .error _ => .isFalse (by simp)
  | .error _, .ok _ => .isFalse (by simp)

/-- `NumericDefinitionType = tuple[float, float] | float` (`bucket.py` line 12). -/
inductive NumericDef where
  | range (low high : ℚ)
  | exact (v : ℚ)
deriving DecidableEq

/-- `NumericBucket` (`bucket.py` lines 51-59): a definition, a score and the
two inclusivity flags with their declared defaults (`left_inclusive: bool =
True`, `right_inclusive: bool = False`). -/
structure NumericBucket where
  definition : NumericDef
  score : ℚ
  left_inclusive : Bool := true
  right_inclusive : Bool := false
deriving DecidableEq

namespace NumericBucket

/-- `NumericBucket.get_score` (`bucket.py` lines 61-80).  A string value fails
the `isinstance(value, int | float)` guard and raises `TypeError`.  A range
definition matches when the left condition (`value >= left_bound` if
left-inclusive else `value > left_bound`) and the right condition
(`value <= right_bound` if right-inclusive else `value < right_bound`) both
hold; an exact definition matches on equality.  No match logs a warning and
returns the supplied default. -/
def get_score (b : NumericBucket) (value : Value) (default : ℚ) : Except PyErr ℚ :=
  match value with
  | .str _ => .error .typeMismatch
  | .num v =>
    match b.definition with
    | .range left_bound right_bound =>
      let left_condition : Bool :=
        if b.left_inclusive then decide (v ≥ left_bound) else decide (v > left_bound)
      let right_condition : Bool :=
        if b.right_inclusive then decide (v ≤ right_bound) else decide (v < right_bound)
      if left_condition && right_condition then .ok b.score else .ok default
    | .exact e => if v = e then .ok b.score else .ok default

/-- `NumericBucket._get_range` (`bucket.py` lines 128-134): a range definition
is itself, an exact value is the degenerate range `(value, value)`. -/
def getRange (b : NumericBucket) : ℚ × ℚ :=
  match b.definition with
  | .range low high => (low, high)
  | .exact v => (v, v)

/-- Left endpoint of `getRange`. -/
def lo (b : NumericBucket) : ℚ := b.getRange.1

/-- Right endpoint of `getRange`. -/
def hi (b : NumericBucket) : ℚ := b.getRange.2

/-- The `self_includes` / `other_includes` formula of `overlaps_with`
(`bucket.py` lines 112-124): a bucket includes the boundary point when the
point equals its left endpoint and the bucket is left-inclusive, or equals its
right endpoint and the bucket is right-inclusive, or lies strictly between the
endpoints. -/
def boundaryIncludes (b : NumericBucket) (p : ℚ) : Bool :=
  (decide (p = b.lo) && b.left_inclusive) ||
  (decide (p = b.hi) && b.right_inclusive) ||
  (decide (b.lo < p) && decide (p < b.hi))

/-- `NumericBucket.overlaps_with` (`bucket.py` lines 89-126): intersect the two
covered ranges; an empty intersection is no overlap, a positive-length
intersection is overlap, and a single shared boundary point is overlap exactly
when both buckets include that point per `boundaryIncludes`. -/
def overlaps_with (a b : NumericBucket) : Bool :=
  if max a.lo b.lo > min a.hi b.hi then false
  else if max a.lo b.lo < min a.hi b.hi then true
  else boundaryIncludes a (max a.lo b.lo) && boundaryIncludes b (max a.lo b.lo)

end NumericBucket

/-- `ObjectDefinitionType = str | list[str]` (`bucket.py` line 13). -/
inductive ObjectDef where
  | single (s : String)
  | multi (l : List String)
deriving DecidableEq

/-- `ObjectBucket` (`bucket.py` lines 146-150). -/
structure ObjectBucket where
  definition : ObjectDef
  score : ℚ
deriving DecidableEq

namespace ObjectBucket

/-- `ObjectBucket.get_score` (`bucket.py` lines 152-166).  A numeric value
fails the `isinstance(value, str)` guard and raises `TypeError`.  A single
string definition matches on equality, a list definition on membership; no
match logs a warning and returns the supplied default. -/
def get_score (b : ObjectBucket) (value : Value) (default : ℚ) : Except PyErr ℚ :=
  match value with
  | .num _ => .error .typeMismatch
  | .str s =>
    match b.definition with
    | .single t => if s = t then .ok b.score else .ok default
    | .multi l => if s ∈ l then .ok b.score else .ok default

/-- `ObjectBucket._get_values` (`bucket.py` lines 184-189): the set of strings
covered by the bucket (`{self.definition}` or `set(self.definition)`);
modelled as the underlying list with duplicates removed. -/
def getValues (b : ObjectBucket) : List String :=
  match b.definition with
  | .single s => [s]
  | .multi l => l.dedup

/-- `ObjectBucket.overlaps_with` (`bucket.py` lines 175-182): true exactly when
the two value sets have a non-empty intersection. -/
def overlaps_with (a b : ObjectBucket) : Bool :=
  !(a.getValues.inter b.getValues).isEmpty

end ObjectBucket

/-! ### Claim-side definitions for the bucket layer -/

/-- The containment formula exactly as claim C3 words it: for a range
definition, `low ≤ v` when left-inclusive else `low < v`, and `v ≤ high` when
right-inclusive else `v < high`; for an exact-value definition, equality. -/
def claimedNumericMatch (b : NumericBucket) (v : ℚ) : Bool :=
  match b.definition with
  | .range low high =>
    (if b.left_inclusive then decide (low ≤ v) else decide (low < v)) &&
    (if b.right_inclusive then decide (v ≤ high) else decide (v < high))
  | .exact e => decide (v = e)

/-- Membership of a point in the covered range of a bucket read literally under
the per-flag interval semantics of claim C3/C4: `low ≤ p` if left-inclusive
else `low < p`, and `p ≤ high` if right-inclusive else `p < high`, with exact
values as degenerate ranges. -/
def flagMembership (b : NumericBucket) (p : ℚ) : Prop :=
  (if b.left_inclusive then b.lo ≤ p else b.lo < p) ∧
  (if b.right_inclusive then p ≤ b.hi else p < b.hi)

/-- Claim C4 as stated: the covered ranges intersect in more than a point, or
they touch at a single point and both buckets include that point under their
own inclusivity flags. -/
def claimOverlapC4 (a b : NumericBucket) : Prop :=
  max a.lo b.lo < min a.hi b.hi ∨
  (max a.lo b.lo = min a.hi b.hi ∧
    flagMembership a (max a.lo b.lo) ∧ flagMembership b (max a.lo b.lo))

/-- Propositional reading of `NumericBucket.boundaryIncludes`: the point equals
the left endpoint of the covered range and the bucket is left-inclusive, or
equals the right endpoint and the bucket is right-inclusive, or lies strictly
between the endpoints. -/
def includesPoint (b : NumericBucket) (p : ℚ) : Prop :=
  (p = b.lo ∧ b.left_inclusive = true) ∨
  (p = b.hi ∧ b.right_inclusive = true) ∨
  (b.lo < p ∧ p < b.hi)

theorem boundaryIncludes_iff (b : NumericBucket) (p : ℚ) :
    b.boundaryIncludes p = true ↔ includesPoint b p := by
  simp [NumericBucket.boundaryIncludes, includesPoint, or_assoc]

/-- The bucket `[0, 10)` with the default flags (used by claim C3). -/
def bucket0To10Default : NumericBucket := { definition := .range 0 10, score := 100 }

/-- The exact-value bucket `= 10` with the default flags (used by claim C4). -/
def bucketExact10 : NumericBucket := { definition := .exact 10, score := 100 }

/-- The bucket `[10, 20]`, both ends inclusive (used by claim C4). -/
def bucket10To20Closed : NumericBucket :=
  { definition := .range 10 20, score := 200, left_inclusive := true, right_inclusive := true }

/-- The bucket `[0, 10]`, both ends inclusive (used by claim C4). -/
def bucket0To10Closed : NumericBucket :=
  { definition := .range 0 10, score := 100, left_inclusive := true, right_inclusive := true }

theorem includesPoint_between (b : NumericBucket) (p : ℚ) (hwf : b.lo ≤ b.hi)
    (h : includesPoint b p) : b.lo ≤ p ∧ p ≤ b.hi := by
  rcases h with ⟨hp, _⟩ | ⟨hp, _⟩ | ⟨h1, h2⟩
  · subst hp; exact ⟨le_refl _, hwf⟩
  · subst hp; exact ⟨hwf, le_refl _⟩
  · exact ⟨le_of_lt h1, le_of_lt h2⟩

/-! ### Theorems for claims C3, C4, C5, C6 -/

/-- Claim C3: `NumericBucket.get_score` matches a numeric value against a range
definition by `low ≤ v` when left-inclusive else `low < v` and `v ≤ high` when
right-inclusive else `v < high`, and against an exact definition by equality,
returning the score on a match and the supplied default otherwise; the flags
default to left-inclusive, right-exclusive; in particular for the bucket
`[0,10)` the values `0` and `9.999999` match and `10` does not. -/
theorem numeric_get_score_matches_claimed_formula :
    (∀ (b : NumericBucket) (v default : ℚ),
        b.get_score (.num v) default = .ok (if claimedNumericMatch b v then b.score else default))
    ∧ (∀ (d : NumericDef) (s : ℚ),
        ({ definition := d, score := s } : NumericBucket).left_inclusive = true ∧
        ({ definition := d, score := s } : NumericBucket).right_inclusive = false)
    ∧ bucket0To10Default.get_score (.num 0) (-1) = .ok 100
    ∧ bucket0To10Default.get_score (.num (9999999 / 1000000)) (-1) = .ok 100
    ∧ bucket0To10Default.get_score (.num 10) (-1) = .ok (-1) := by
  refine ⟨?_, fun d s => ⟨rfl, rfl⟩, by norm_num [bucket0To10Default, NumericBucket.get_score],
    by norm_num [bucket0To10Default, NumericBucket.get_score],
    by norm_num [bucket0To10Default, NumericBucket.get_score]⟩
  intro b v default
  cases hd : b.definition with
  | range low high =>
    simp only [NumericBucket.get_score, claimedNumericMatch, hd, ge_iff_le, gt_iff_lt]
    exact (apply_ite Except.ok _ _ _).symm
  | exact e =>
    simp only [NumericBucket.get_score, claimedNumericMatch, hd, decide_eq_true_eq]
    by_cases h : v = e <;> simp [h]

/-- Claim C4 counterexample: an exact-value bucket `= 10` with the default
flags (left-inclusive, right-exclusive) against the range `[10, 20]`.
`overlaps_with` returns true (the repository test
`test_overlaps_with_range_and_single_value_bucket_inclusive` asserts this),
but the claim as stated says the single-point intersection `{10}` only counts
when both buckets include `10` under their own inclusivity flags, and the
degenerate range `[10, 10]` of the exact bucket is right-exclusive, so the
claim reports no overlap. -/
theorem c4_counterexample :
    NumericBucket.overlaps_with bucketExact10 bucket10To20Closed = true
    ∧ ¬ claimOverlapC4 bucketExact10 bucket10To20Closed := by
  constructor
  · decide
  · intro h
    rcases h with h | ⟨_, ⟨_, hr⟩, _⟩
    · revert h; decide
    · revert hr; decide

/-- Claim C4 (amended): for NumericBuckets whose covered ranges are ordered
(`low ≤ high`; exact values are degenerate ranges `[v, v]`), `overlaps_with`
returns true iff some point is included in both covered ranges, where a bucket
includes a point iff the point equals its low endpoint and the bucket is
left-inclusive, or equals its high endpoint and the bucket is right-inclusive,
or lies strictly between the endpoints. -/
theorem overlaps_with_iff_common_point (a b : NumericBucket)
    (ha : a.lo ≤ a.hi) (hb : b.lo ≤ b.hi) :
    a.overlaps_with b = true ↔ ∃ p : ℚ, includesPoint a p ∧ includesPoint b p := by
  unfold NumericBucket.overlaps_with
  split_ifs with h1 h2
  · simp only [Bool.false_eq_true, false_iff]
    rintro ⟨p, hpa, hpb⟩
    have hA := includesPoint_between a p ha hpa
    have hB := includesPoint_between b p hb hpb
    have hle : max a.lo b.lo ≤ p := max_le hA.1 hB.1
    have hge : p ≤ min a.hi b.hi := le_min hA.2 hB.2
    exact absurd (le_trans hle hge) (not_le.mpr h1)
  · simp only [true_iff]
    refine ⟨(max a.lo b.lo + min a.hi b.hi) / 2, ?_, ?_⟩
    · refine Or.inr (Or.inr ⟨?_, ?_⟩)
      · have := le_max_left a.lo b.lo
        linarith
      · have := min_le_left a.hi b.hi
        linarith
    · refine Or.inr (Or.inr ⟨?_, ?_⟩)
      · have := le_max_right a.lo b.lo
        linarith
      · have := min_le_right a.hi b.hi
        linarith
  · have heq : max a.lo b.lo = min a.hi b.hi :=
      le_antisymm (not_lt.mp h1) (not_lt.mp h2)
    rw [Bool.and_eq_true, boundaryIncludes_iff, boundaryIncludes_iff]
    constructor
    · rintro ⟨hA, hB⟩
      exact ⟨max a.lo b.lo, hA, hB⟩
    · rintro ⟨p, hpa, hpb⟩
      have hA := includesPoint_between a p ha hpa
      have hB := includesPoint_between b p hb hpb
      have hle : max a.lo b.lo ≤ p := max_le hA.1 hB.1
      have hge : p ≤ min a.hi b.hi := le_min hA.2 hB.2
      have hp : p = max a.lo b.lo := le_antisymm (heq ▸ hge) hle
      exact ⟨hp ▸ hpa, hp ▸ hpb⟩

/-- Witness for the amended claim C4 at the buckets `[0, 10]` and `[10, 20]`. -/
theorem overlaps_with_iff_common_point_witness :
    NumericBucket.overlaps_with bucket0To10Closed bucket10To20Closed = true
      ↔ ∃ p : ℚ, includesPoint bucket0To10Closed p ∧ includesPoint bucket10To20Closed p :=
  overlaps_with_iff_common_point bucket0To10Closed bucket10To20Closed (by decide) (by decide)

/-- Claim C5: the overlap test is symmetric for both bucket kinds. -/
theorem overlaps_with_symmetric :
    (∀ a b : NumericBucket, a.overlaps_with b = b.overlaps_with a)
    ∧ (∀ a b : ObjectBucket, a.overlaps_with b = b.overlaps_with a) := by
  constructor
  · intro a b
    unfold NumericBucket.overlaps_with
    rw [max_comm b.lo a.lo, min_comm b.hi a.hi, Bool.and_comm]
  · intro a b
    unfold ObjectBucket.overlaps_with
    have swap : ∀ (l₁ l₂ : List String) (x : String), x ∈ l₁.inter l₂ → x ∈ l₂.inter l₁ := by
      intro l₁ l₂ x hx
      have hx2 : x ∈ l₁ ∩ l₂ := hx
      rw [List.mem_inter_iff] at hx2
      show x ∈ l₂ ∩ l₁
      rw [List.mem_inter_iff]
      exact ⟨hx2.2, hx2.1⟩
    apply congrArg Bool.not
    rw [Bool.eq_iff_iff, List.isEmpty_iff, List.isEmpty_iff,
      List.eq_nil_iff_forall_not_mem, List.eq_nil_iff_forall_not_mem]
    constructor <;> intro h x hx <;> exact h x (swap _ _ x hx)

/-! ### Features (`feature.py`) and record scoring (`expert_scorecard.py`) -/

/-- `BaseFeature.buckets : list[NumericBucket] | list[ObjectBucket]`
(`feature.py` line 34): one bucket kind per feature, never mixed. -/
inductive FeatureBuckets where
  | nums (bs : List NumericBucket)
  | objs (bs : List ObjectBucket)
deriving DecidableEq

/-- `BaseFeature` (`feature.py` lines 24-38) with its scoring-relevant fields;
`default_score` defaults to `0.0`. -/
structure Feature where
  name : String
  family : String
  description : String
  buckets : FeatureBuckets
  weight : ℚ
  default_score : ℚ := 0
deriving DecidableEq

/-- The expression `bucket.contains(value)` from
`BaseFeature._get_bucket_for_value` (`feature.py` line 43).  Neither `Bucket`
nor `NumericBucket` nor `ObjectBucket` defines an attribute `contains`
(`bucket.py` defines only `get_score`, `get_sort_key`, `overlaps_with` and
`display_definition`), so evaluating the expression raises `AttributeError`
for every bucket and value. -/
def containsCall {α : Type} (_bucket : α) (_value : Value) : Except PyErr Bool :=
  .error .attributeError

/-- The loop of `BaseFeature._get_bucket_for_value` (`feature.py` lines
40-45): return the first bucket for which `bucket.contains(value)` is true,
or `None` when the loop finishes. -/
def getBucketForValue {α : Type} : List α → Value → Except PyErr (Option α)
  | [], _ => .ok none
  | bucket :: rest, value => do
    let c ← containsCall bucket value
    if c then .ok (some bucket) else getBucketForValue rest value

/-- `BaseFeature.get_score` (`feature.py` lines 47-54): the score of the
bucket found by `_get_bucket_for_value`, or `default_score` (after a warning)
when no bucket is found. -/
def Feature.get_score (f : Feature) (value : Value) : Except PyErr ℚ :=
  match f.buckets with
  | .nums bs => do
    match ← getBucketForValue bs value with
    | some b => .ok b.score
    | none => .ok f.default_score
  | .objs bs => do
    match ← getBucketForValue bs value with
    | some b => .ok b.score
    | none => .ok f.default_score

/-- A record presented to `_score_record`: a Python dict from feature name to
value, modelled as an association list (first binding wins). -/
abbrev Record := List (String × Value)

/-- `ExpertScorecard` (`expert_scorecard.py` lines 26-43): identity metadata
plus the feature list.  The validator registry and the audit trail are
modelled separately with the validation layer. -/
structure ExpertScorecard where
  name : String
  description : String
  version : String
  features : List Feature

/-- The loop of `ExpertScorecard._score_record` (`expert_scorecard.py` lines
97-104): `total_score` starts at `0.0` and, for each feature whose name is a
key of the record, grows by `feature.get_score(record[name]) * feature.weight
/ 100.0`; features whose name is absent are skipped. -/
def scoreRecordAux (record : Record) : List Feature → ℚ → Except PyErr ℚ
  | [], total => .ok total
  | f :: rest, total =>
    match record.lookup f.name with
    | some v => do
      let fs ← f.get_score v
      scoreRecordAux record rest (total + fs * f.weight / 100)
    | none => scoreRecordAux record rest total

/-- `ExpertScorecard._score_record` / `predict_single`. -/
def scoreRecord (sc : ExpertScorecard) (record : Record) : Except PyErr ℚ :=
  scoreRecordAux record sc.features 0

theorem scoreRecordAux_sums (record : Record) (s : Feature → ℚ) :
    ∀ (fs : List Feature) (total : ℚ),
      (∀ f ∈ fs, ∀ v, record.lookup f.name = some v → f.get_score v = .ok (s f)) →
      scoreRecordAux record fs total = .ok
        (total + ((fs.filter (fun f => (record.lookup f.name).isSome)).map
          (fun f => s f * f.weight / 100)).sum)
  | [], total, _ => by simp [scoreRecordAux]
  | f :: rest, total, h => by
    have hrest : ∀ g ∈ rest, ∀ v, record.lookup g.name = some v → g.get_score v = .ok (s g) :=
      fun g hg => h g (List.mem_cons_of_mem _ hg)
    cases hv : record.lookup f.name with
    | none =>
      have hstep : scoreRecordAux record (f :: rest) total = scoreRecordAux record rest total := by
        simp only [scoreRecordAux, hv]
      rw [hstep, scoreRecordAux_sums record s rest total hrest]
      simp [List.filter_cons, hv]
    | some v =>
      have hf := h f (List.mem_cons_self f rest) v hv
      have hstep : scoreRecordAux record (f :: rest) total
          = scoreRecordAux record rest (total + s f * f.weight / 100) := by
        simp only [scoreRecordAux, hv, hf]
        rfl
      rw [hstep, scoreRecordAux_sums record s rest _ hrest]
      simp [List.filter_cons, hv, add_assoc]

/-- Claim C1: scoring a record returns the sum, over exactly those features
whose name is a key of the record, of `feature.get_score(record[name]) *
feature.weight / 100.0`; features absent from the record contribute nothing
and cause no error.  The hypothesis fixes the value each present feature
scores to, so the conclusion exhibits the total as that weighted sum. -/
theorem score_record_weighted_sum (sc : ExpertScorecard) (record : Record) (s : Feature → ℚ)
    (h : ∀ f ∈ sc.features, ∀ v, record.lookup f.name = some v → f.get_score v = .ok (s f)) :
    scoreRecord sc record = .ok
      (((sc.features.filter (fun f => (record.lookup f.name).isSome)).map
        (fun f => s f * f.weight / 100)).sum) := by
  unfold scoreRecord
  rw [scoreRecordAux_sums record s sc.features 0 h, zero_add]

/-- Feature with no buckets named `a` (its `get_score` reaches the
default-score path because the `_get_bucket_for_value` loop has no iteration
to raise in). -/
def featureEmptyA : Feature :=
  { name := "a", family := "fam", description := "", buckets := .nums [],
    weight := 50, default_score := 7 }

/-- Feature with no buckets named `b`. -/
def featureEmptyB : Feature :=
  { name := "b", family := "fam", description := "", buckets := .nums [], weight := 50 }

/-- Two-feature scorecard used as witness input for claim C1. -/
def scorecardAB : ExpertScorecard :=
  { name := "sc", description := "", version := "1", features := [featureEmptyA, featureEmptyB] }

/-- Record containing feature `a` but not feature `b`. -/
def recordOnlyA : Record := [("a", .num 3)]

/-- Witness for claim C1: the record holds `a` but omits `b`, so the total is
the default score of `a` times its weight over 100 and `b` contributes
nothing. -/
theorem score_record_weighted_sum_witness :
    scoreRecord scorecardAB recordOnlyA = .ok
      (((scorecardAB.features.filter (fun f => (recordOnlyA.lookup f.name).isSome)).map
        (fun f => f.default_score * f.weight / 100)).sum) := by
  refine score_record_weighted_sum scorecardAB recordOnlyA Feature.default_score ?_
  intro f hf v hv
  simp only [scorecardAB, List.mem_cons, List.not_mem_nil, or_false] at hf
  rcases hf with rfl | rfl
  · have h2 : (some (Value.num 3) : Option Value) = some v := hv
    have h3 : v = .num 3 := (Option.some.inj h2).symm
    subst h3
    rfl
  · exact Option.noConfusion hv

/-- Feature whose buckets list is non-empty, so that scoring it reaches the
`bucket.contains(value)` call (the claim C2 failing input). -/
def featureAge : Feature :=
  { name := "age", family := "fam", description := "", buckets := .nums [bucket0To10Default],
    weight := 50 }

/-- Claim C2 evaluated on the code: `Feature.get_score` on a feature with at
least one bucket raises `AttributeError` for every value, because
`_get_bucket_for_value` calls the undefined method `bucket.contains`; the
claimed linear scan returning the first matching score (here `100` for the
value `5` in `[0,10)`) never happens. -/
theorem feature_get_score_raises_attribute_error :
    featureAge.get_score (.num 5) = .error .attributeError := rfl

/-! ### Validation (`validators.py`, `expert_scorecard.py`) -/

/-- Check every unordered pair of the list, in the order of the double loop of
`BaseFeature.has_overlapping_buckets` (`feature.py` lines 66-72): for each
index `i`, partner every later bucket. -/
def anyPairOverlaps {α : Type} (ovl : α → α → Bool) : List α → Bool
  | [] => false
  | b :: rest => rest.any (ovl b) || anyPairOverlaps ovl rest

/-- All overlapping pairs, in the order of the double loop of
`BaseFeature.get_overlapping_buckets` (`feature.py` lines 74-81). -/
def overlappingPairsOf {α : Type} (ovl : α → α → Bool) : List α → List (α × α)
  | [] => []
  | b :: rest => ((rest.filter (ovl b)).map (fun c => (b, c))) ++ overlappingPairsOf ovl rest

/-- `BaseFeature.has_overlapping_buckets`, dispatching on the bucket kind. -/
def Feature.has_overlapping_buckets (f : Feature) : Bool :=
  match f.buckets with
  | .nums bs => anyPairOverlaps NumericBucket.overlaps_with bs
  | .objs bs => anyPairOverlaps ObjectBucket.overlaps_with bs

/-- A bucket definition of either kind, as it appears in an overlap error
message. -/
inductive BucketDef where
  | num (d : NumericDef)
  | obj (d : ObjectDef)
deriving DecidableEq

/-- `BaseFeature.get_overlapping_buckets` followed by taking each pair of
definitions, which is exactly what `OverlapValidator.validate` interpolates
into its error messages (`validators.py` lines 62-66). -/
def Feature.overlappingDefs (f : Feature) : List (BucketDef × BucketDef) :=
  match f.buckets with
  | .nums bs => (overlappingPairsOf NumericBucket.overlaps_with bs).map
      (fun p => (.num p.1.definition, .num p.2.definition))
  | .objs bs => (overlappingPairsOf ObjectBucket.overlaps_with bs).map
      (fun p => (.obj p.1.definition, .obj p.2.definition))

/-- A validation failure, carrying the data the raised `ValidationError`
message is built from: the offending weight total, or the list of
(feature name, bucket definition, bucket definition) overlap messages. -/
inductive VErr where
  | weight (total : ℚ)
  | overlap (payload : List (String × BucketDef × BucketDef))
deriving DecidableEq

/-- `FeatureWeightValidator.validate` (`validators.py` lines 32-45): sum the
feature weights and fail when the total differs from 100 by more than the
`0.001` tolerance. -/
def featureWeightValidate (sc : ExpertScorecard) : Except VErr Unit :=
  let total := (sc.features.map Feature.weight).sum
  if |total - 100| > 1 / 1000 then .error (.weight total) else .ok ()

/-- The loop of `OverlapValidator.validate` (`validators.py` lines 56-72):
walk the features in order and, at the first feature reporting
`has_overlapping_buckets()`, raise with one message per overlapping pair of
that feature; later features are not reached. -/
def overlapValidateAux : List Feature → Except VErr Unit
  | [] => .ok ()
  | f :: rest =>
    if f.has_overlapping_buckets then
      .error (.overlap (f.overlappingDefs.map (fun p => (f.name, p.1, p.2))))
    else overlapValidateAux rest

/-- `OverlapValidator.validate`. -/
def overlapValidate (sc : ExpertScorecard) : Except VErr Unit :=
  overlapValidateAux sc.features

/-- A registered validator as `ExpertScorecard.validate` consumes it: a name
and a classmethod `validate` that raises on failure. -/
structure ValidatorImpl where
  name : String
  run : ExpertScorecard → Except VErr Unit

/-- `FeatureWeightValidator` as a registrable validator. -/
def weightValidator : ValidatorImpl := { name := "feature_weight", run := featureWeightValidate }

/-- `OverlapValidator` as a registrable validator. -/
def overlapValidator : ValidatorImpl := { name := "overlap", run := overlapValidate }

/-- `ValidationResult` (`expert_scorecard.py` lines 17-23) without the wall
clock timestamp, which the verified properties never inspect. -/
structure ValidationResult where
  validator_name : String
  passed : Bool
deriving DecidableEq

/-- The loop of `ExpertScorecard.validate` (`expert_scorecard.py` lines
45-52): run each registered validator in order; a raising validator aborts
the loop at once, a passing one appends a `passed` result. -/
def runValidators (sc : ExpertScorecard) :
    List ValidatorImpl → List ValidationResult → Except VErr (List ValidationResult)
  | [], results => .ok results
  | v :: rest, results => do
    v.run sc
    runValidators sc rest (results ++ [{ validator_name := v.name, passed := true }])

/-- `ExpertScorecard.validate` with the given registry contents, starting
from the empty audit trail of a fresh scorecard. -/
def validateScorecard (validators : List ValidatorImpl) (sc : ExpertScorecard) :
    Except VErr (List ValidationResult) :=
  runValidators sc validators []

/-- The failures found by running every registered validator on the
scorecard: what claim C7 says a single `validate()` call collects and raises
as one aggregate. -/
def collectAllFailures (validators : List ValidatorImpl) (sc : ExpertScorecard) : List VErr :=
  validators.filterMap (fun v => match v.run sc with | .error e => some e | .ok _ => none)

/-- Every offending (feature name, bucket definition, bucket definition)
triple in the whole scorecard: what claim C8 says the overlap failure payload
enumerates. -/
def allOverlapOffenses (sc : ExpertScorecard) : List (String × BucketDef × BucketDef) :=
  sc.features.flatMap (fun f => f.overlappingDefs.map (fun p => (f.name, p.1, p.2)))

/-- Bucket `[0, 100)` with the default flags. -/
def bucket0To100 : NumericBucket := { definition := .range 0 100, score := 100 }

/-- Bucket `[50, 150)` with the default flags; overlaps `[0, 100)`. -/
def bucket50To150 : NumericBucket := { definition := .range 50 150, score := 50 }

/-- Bucket `[5, 15)` with the default flags; overlaps `[0, 10)`. -/
def bucket5To15 : NumericBucket := { definition := .range 5 15, score := 2 }

/-- Feature `F1` with overlapping buckets `[0,100)` and `[50,150)` and weight
150 (fails both canonical validators). -/
def featureF1 : Feature :=
  { name := "F1", family := "", description := "",
    buckets := .nums [bucket0To100, bucket50To150], weight := 150 }

/-- Feature `F2` with overlapping buckets `[0,10)` and `[5,15)`. -/
def featureF2 : Feature :=
  { name := "F2", family := "", description := "",
    buckets := .nums [bucket0To10Default, bucket5To15], weight := 50 }

/-- Scorecard whose single feature fails both the weight validator (total
150) and the overlap validator. -/
def scorecardBadBoth : ExpertScorecard :=
  { name := "s", description := "", version := "1", features := [featureF1] }

/-- Scorecard with two distinct offending features, `F1` and `F2`. -/
def scorecardTwoOffending : ExpertScorecard :=
  { name := "s2", description := "", version := "1", features := [featureF1, featureF2] }

/-- The overlap payload naming only feature `F1`. -/
def payloadF1 : List (String × BucketDef × BucketDef) :=
  [("F1", .num (.range 0 100), .num (.range 50 150))]

/-- The overlap payload naming both `F1` and `F2`. -/
def payloadF1F2 : List (String × BucketDef × BucketDef) :=
  [("F1", .num (.range 0 100), .num (.range 50 150)),
   ("F2", .num (.range 0 10), .num (.range 5 15))]

/-- Claim C7 counterexample: on a scorecard failing both registered
validators, the run finds two failures, but `validate()` raises only the
first validator's failure — nothing is aggregated and the second validator
never runs. -/
theorem c7_counterexample :
    validateScorecard [weightValidator, overlapValidator] scorecardBadBoth
        = .error (.weight 150)
    ∧ collectAllFailures [weightValidator, overlapValidator] scorecardBadBoth
        = [.weight 150, .overlap payloadF1]
    ∧ (VErr.weight 150) ≠ .overlap payloadF1 := by
  refine ⟨?_, ?_, by decide⟩
  · show runValidators scorecardBadBoth [weightValidator, overlapValidator] [] = _
    have hw : weightValidator.run scorecardBadBoth = .error (.weight 150) := by
      show featureWeightValidate scorecardBadBoth = _
      norm_num [featureWeightValidate, scorecardBadBoth, featureF1]
    simp only [runValidators, hw]
    rfl
  · have hw : weightValidator.run scorecardBadBoth = .error (.weight 150) := by
      show featureWeightValidate scorecardBadBoth = _
      norm_num [featureWeightValidate, scorecardBadBoth, featureF1]
    have ho : overlapValidator.run scorecardBadBoth = .error (.overlap payloadF1) := by
      show overlapValidate scorecardBadBoth = _
      decide
    simp [collectAllFailures, hw, ho]

theorem runValidators_first_error (sc : ExpertScorecard) (v : ValidatorImpl) (e : VErr)
    (hv : v.run sc = .error e) :
    ∀ (pre post : List ValidatorImpl) (results : List ValidationResult),
      (∀ w ∈ pre, w.run sc = .ok ()) →
      runValidators sc (pre ++ v :: post) results = .error e
  | [], post, results, _ => by
    simp only [List.nil_append, runValidators, hv]
    rfl
  | w :: pre, post, results, hpre => by
    have hw := hpre w (List.mem_cons_self w pre)
    simp only [List.cons_append, runValidators, hw]
    exact runValidators_first_error sc v e hv pre post _
      (fun u hu => hpre u (List.mem_cons_of_mem _ hu))

theorem runValidators_all_ok (sc : ExpertScorecard) :
    ∀ (validators : List ValidatorImpl) (results : List ValidationResult),
      (∀ w ∈ validators, w.run sc = .ok ()) →
      runValidators sc validators results = .ok
        (results ++ validators.map (fun w => { validator_name := w.name, passed := true }))
  | [], results, _ => by simp [runValidators]
  | w :: rest, results, h => by
    have hw := h w (List.mem_cons_self w rest)
    simp only [runValidators, hw]
    rw [runValidators_all_ok sc rest _ (fun u hu => h u (List.mem_cons_of_mem _ hu))]
    simp only [List.append_assoc, List.singleton_append, List.map_cons]
    rfl

/-- Claim C7 (amended): `validate()` runs the registered validators in
registration order and stops at the first failure: if every validator before
`v` passes and `v` fails with `e`, the call raises exactly `e` and the
validators after `v` are never consulted; if every validator passes, the call
returns one passed result per validator, in order. -/
theorem validate_stops_at_first_failure :
    (∀ (pre post : List ValidatorImpl) (v : ValidatorImpl) (sc : ExpertScorecard) (e : VErr),
      (∀ w ∈ pre, w.run sc = .ok ()) → v.run sc = .error e →
      validateScorecard (pre ++ v :: post) sc = .error e)
    ∧ (∀ (validators : List ValidatorImpl) (sc : ExpertScorecard),
      (∀ w ∈ validators, w.run sc = .ok ()) →
      validateScorecard validators sc = .ok
        (validators.map (fun w => { validator_name := w.name, passed := true }))) := by
  constructor
  · intro pre post v sc e hpre hv
    exact runValidators_first_error sc v e hv pre post [] hpre
  · intro validators sc h
    have := runValidators_all_ok sc validators [] h
    simpa [validateScorecard] using this

/-- Witness for the amended claim C7: with the weight validator first and the
overlap validator second on a scorecard failing both, the weight failure is
raised alone. -/
theorem validate_stops_at_first_failure_witness :
    validateScorecard ([] ++ weightValidator :: [overlapValidator]) scorecardBadBoth
      = .error (.weight 150) :=
  validate_stops_at_first_failure.1 [] [overlapValidator] weightValidator scorecardBadBoth
    (.weight 150) (fun w hw => absurd hw (List.not_mem_nil w))
    (by show featureWeightValidate scorecardBadBoth = _
        norm_num [featureWeightValidate, scorecardBadBoth, featureF1])

/-- Claim C8 counterexample: a scorecard in which both `F1` and `F2` have
overlapping buckets.  `F2` offends, yet the raised payload names only `F1`:
the failure does not enumerate every offending (feature, bucket-pair) in the
scorecard. -/
theorem c8_counterexample :
    overlapValidate scorecardTwoOffending = .error (.overlap payloadF1)
    ∧ featureF2.has_overlapping_buckets = true
    ∧ allOverlapOffenses scorecardTwoOffending = payloadF1F2
    ∧ payloadF1 ≠ payloadF1F2 := by
  refine ⟨by decide, by decide, by decide, by decide⟩

/-- Claim C8 (amended): the overlap validator fails iff some feature has
overlapping buckets, and the raised payload enumerates every offending
bucket-pair of the first offending feature (in scorecard order), naming both
definitions; later offending features are not included. -/
theorem overlap_validator_first_offending_feature :
    (∀ fs : List Feature,
      overlapValidateAux fs =
        (match fs.find? Feature.has_overlapping_buckets with
         | some f => .error (.overlap (f.overlappingDefs.map (fun p => (f.name, p.1, p.2))))
         | none => .ok ()))
    ∧ (∀ fs : List Feature,
      overlapValidateAux fs = .ok () ↔ ∀ f ∈ fs, f.has_overlapping_buckets = false) := by
  have key : ∀ fs : List Feature,
      overlapValidateAux fs =
        (match fs.find? Feature.has_overlapping_buckets with
         | some f => .error (.overlap (f.overlappingDefs.map (fun p => (f.name, p.1, p.2))))
         | none => .ok ()) := by
    intro fs
    induction fs with
    | nil => rfl
    | cons f rest ih =>
      by_cases hf : f.has_overlapping_buckets
      · simp [overlapValidateAux, hf, List.find?_cons, hf]
      · simp only [overlapValidateAux, hf, if_neg, Bool.false_eq_true, not_false_iff]
        rw [ih]
        have : List.find? Feature.has_overlapping_buckets (f :: rest)
            = List.find? Feature.has_overlapping_buckets rest := by
          simp [List.find?_cons, hf]
        rw [this]
  refine ⟨key, fun fs => ?_⟩
  rw [key fs]
  cases hfind : fs.find? Feature.has_overlapping_buckets with
  | none =>
    simp only [true_iff]
    intro f hf
    have := List.find?_eq_none.mp hfind f hf
    simpa using this
  | some g =>
    have hg : g.has_overlapping_buckets = true := List.find?_some hfind
    have hmem : g ∈ fs := List.mem_of_find?_eq_some hfind
    constructor
    · intro h
      exact absurd h (by simp)
    · intro h
      exact absurd hg (by simp [h g hmem])

/-! ### Validator registry (`registry.py`) -/

/-- The `ValidatorRegistry._validators` dict: validator name mapped to the
registered validator, in insertion order. -/
abbrev Registry := List (String × ValidatorImpl)

/-- The `ValueError` raised by `ValidatorRegistry.register` for an
already-registered name (the `DuplicateValidatorName` failure of the error
taxonomy). -/
inductive RegErr where
  | duplicateName (name : String)
deriving DecidableEq

/-- `ValidatorRegistry.register` (`registry.py` lines 14-17) in state-passing
form: the duplicate-name check runs before the dict item assignment, so the
raising call returns the registry unchanged together with the error, while
the succeeding call inserts the new key at the end of the dict. -/
def registerValidator (r : Registry) (v : ValidatorImpl) : Registry × Option RegErr :=
  if (r.lookup v.name).isSome then (r, some (.duplicateName v.name))
  else (r ++ [(v.name, v)], none)

theorem lookup_append_fresh (name : String) (v : ValidatorImpl) :
    ∀ r : Registry, r.lookup name = none → (r ++ [(name, v)]).lookup name = some v
  | [], _ => by simp [List.lookup]
  | (a, b) :: rest, h => by
    simp only [List.lookup, List.cons_append] at h ⊢
    cases hab : (name == a) with
    | true => rw [hab] at h; exact Option.noConfusion h
    | false =>
      rw [hab] at h
      simpa using lookup_append_fresh name v rest h

/-- Claim C9: registering a validator under a name that is already registered
reports the duplicate-name error, leaves the registry exactly as it was, and
the name still resolves to the validator registered first. -/
theorem register_duplicate_name_rejected (r : Registry) (v w : ValidatorImpl)
    (hfresh : r.lookup v.name = none) (hname : w.name = v.name) :
    (registerValidator (registerValidator r v).1 w).2 = some (.duplicateName w.name)
    ∧ (registerValidator (registerValidator r v).1 w).1 = (registerValidator r v).1
    ∧ ((registerValidator (registerValidator r v).1 w).1).lookup w.name = some v := by
  have h1 : (registerValidator r v).1 = r ++ [(v.name, v)] := by
    simp [registerValidator, hfresh]
  have h2 : (r ++ [(v.name, v)]).lookup w.name = some v := by
    rw [hname]
    exact lookup_append_fresh v.name v r hfresh
  have houter : registerValidator (r ++ [(v.name, v)]) w
      = (r ++ [(v.name, v)], some (.duplicateName w.name)) := by
    unfold registerValidator
    rw [h2]
    simp
  rw [h1, houter]
  exact ⟨rfl, rfl, h2⟩

/-- Witness for claim C9, mirroring `test_duplicated_validator_name_errors`:
register `FeatureWeightValidator` twice into an empty registry. -/
theorem register_duplicate_name_rejected_witness :
    (registerValidator (registerValidator [] weightValidator).1 weightValidator).2
        = some (.duplicateName weightValidator.name)
    ∧ (registerValidator (registerValidator [] weightValidator).1 weightValidator).1
        = (registerValidator [] weightValidator).1
    ∧ ((registerValidator (registerValidator [] weightValidator).1 weightValidator).1).lookup
        weightValidator.name = some weightValidator :=
  register_duplicate_name_rejected [] weightValidator weightValidator rfl rfl

/-! ### Class-level sharing of the registry table (`registry.py` lines 7-24)

`_validators: dict[str, type[ScorecardValidator]] = {}` is a class attribute:
the dict object is created once, when the class body is executed.  No method
of `ValidatorRegistry` ever assigns the attribute on an instance — `register`
assigns an item into the dict (`self._validators[...] = ...`), `clear` clears
the dict in place, and the `validators` property returns the dict itself — so
the attribute lookup `self._validators` falls through to the class attribute
for every instance, and all instances alias the one class-level dict.  The
heap model below captures exactly this: dict objects addressed by id, one
class attribute holding the id, instances holding no binding of their own. -/

/-- Address of a Python dict object. -/
abbrev DictId := Nat

/-- The slice of the Python heap relevant to `ValidatorRegistry`: the dict
store and the single class attribute `_validators`. -/
structure RegistryHeap where
  dicts : DictId → Registry
  classAttr : DictId

/-- A `ValidatorRegistry` instance: only an identity, since no instance ever
carries its own `_validators` binding. -/
structure RegistryInstance where
  id : Nat
deriving DecidableEq

/-- Attribute lookup `self._validators`: the instance has no own binding, so
the lookup reaches the class attribute, whatever the instance. -/
def attrRef (σ : RegistryHeap) (_inst : RegistryInstance) : DictId :=
  σ.classAttr

/-- The `validators` property (`registry.py` lines 10-12) read through an
instance: the contents of the dict the attribute lookup reaches. -/
def validatorsVia (σ : RegistryHeap) (inst : RegistryInstance) : Registry :=
  σ.dicts (attrRef σ inst)

/-- `register` called through an instance: run `registerValidator` on the
dict the attribute lookup reaches and write the result back in place. -/
def registerVia (σ : RegistryHeap) (inst : RegistryInstance) (v : ValidatorImpl) :
    RegistryHeap × Option RegErr :=
  let d := attrRef σ inst
  match registerValidator (σ.dicts d) v with
  | (r, none) => ({ σ with dicts := fun j => if j = d then r else σ.dicts j }, none)
  | (_, some e) => (σ, some e)

/-- `clear` (`registry.py` lines 23-24) called through an instance: clear the
dict the attribute lookup reaches, in place. -/
def clearVia (σ : RegistryHeap) (inst : RegistryInstance) : RegistryHeap :=
  { σ with dicts := fun j => if j = attrRef σ inst then [] else σ.dicts j }

/-- `ValidatorRegistry()` construction: the class defines no `__init__` and
the class body has already run, so constructing an instance touches neither
the dict store nor the class attribute. -/
def newInstance (σ : RegistryHeap) (n : Nat) : RegistryHeap × RegistryInstance :=
  (σ, { id := n })

/-- Claim C10: the validator table is class-level state shared by every
instance: a registration performed through any instance `i` is observed
through any instance `j` — in particular through an instance constructed
afterwards, which therefore does not start empty — as the same updated dict;
`clear()` through any instance empties what every instance observes; and
constructing an instance changes no state and observes the current table. -/
theorem registry_table_shared_across_instances :
    (∀ (σ : RegistryHeap) (i j : RegistryInstance) (v : ValidatorImpl),
      validatorsVia (registerVia σ i v).1 j = (registerValidator (validatorsVia σ i) v).1)
    ∧ (∀ (σ : RegistryHeap) (i j : RegistryInstance), validatorsVia (clearVia σ i) j = [])
    ∧ (∀ (σ : RegistryHeap) (n : Nat) (j : RegistryInstance),
      (newInstance σ n).1 = σ
      ∧ validatorsVia ((newInstance σ n).1) ((newInstance σ n).2) = validatorsVia σ j) := by
  refine ⟨?_, ?_, fun σ n j => ⟨rfl, rfl⟩⟩
  · intro σ i j v
    unfold registerVia validatorsVia attrRef
    rcases hreg : registerValidator (σ.dicts σ.classAttr) v with ⟨r, e⟩
    cases e with
    | none => simp [hreg]
    | some err =>
      have hr : r = σ.dicts σ.classAttr := by
        unfold registerValidator at hreg
        split_ifs at hreg with hc
        · injection hreg with ha hb
          exact ha.symm
        · injection hreg with ha hb
          exact Option.noConfusion hb
      simp [hreg, hr]
  · intro σ i j
    simp [clearVia, validatorsVia, attrRef]

/-- Claim C6: a string value presented to `NumericBucket.get_score` raises
`TypeError`, and a numeric value presented to `ObjectBucket.get_score` raises
`TypeError`; neither is coerced or scored. -/
theorem wrong_kind_value_raises_type_error :
    (∀ (b : NumericBucket) (s : String) (default : ℚ),
        b.get_score (.str s) default = .error .typeMismatch)
    ∧ (∀ (b : ObjectBucket) (q default : ℚ),
        b.get_score (.num q) default = .error .typeMismatch) :=
  ⟨fun _ _ _ => rfl, fun _ _ _ => rfl⟩

end RiskKit
